import Mathlib

/-
  Verification development for the rlox core (scanner / compiler / chunk / VM).

  Shallow embedding conventions:
  * Source text is a `List Char`; positions count characters.  The Rust code
    indexes by UTF-8 byte offsets, but every offset it forms lies on a
    character boundary (`advance` adds `len_utf8` of the char just read), so
    counting characters is the same slicing on the same boundaries.
  * Rust `char::is_alphabetic` (Unicode) is modelled by `Char.isAlpha`; all
    inputs exercised here are ASCII, where the two agree.
  * A Rust `panic!` / failed `unwrap` is an explicit `panic` outcome.
  * Loops whose body can fail to make progress take a fuel argument; `diverge`
    means the fuel ran out.  A loop that provably returns `diverge` for every
    fuel never terminates.  Loops that always consume input are given fuel
    equal to the input length, which each iteration strictly decreases, so the
    fuel is never the reason they stop.
  * `f64` is modelled by `Rat`; every numeric literal and arithmetic result
    exercised by the claims is exactly representable in `f64`, where `f64`
    and `Rat` arithmetic agree — except the quotient 1/3, noted where it
    occurs, whose `f64` counterpart is the nearest double.
-/

namespace RLox

/-! ## Scanner (src/scanner.rs) -/

inductive TokenType where
  | LeftParen | RightParen | LeftBrace | RightBrace
  | Comma | Dot | Minus | Plus | Semicolon | Slash | Star
  | Bang | BangEqual | Equal | EqualEqual
  | Greater | GreaterEqual | Less | LessEqual
  | Identifier | String | Number
  | And | Class | Else | False | For | Fun | If | Nil | Or
  | Print | Return | Super | This | True | Var | While
  | Error | EOF
deriving Repr, DecidableEq

/-- `Token { ty, start, line }`; `start` holds the lexeme slice, or the static
message for error tokens. -/
structure Token where
  ty : TokenType
  start : List Char
  line : Nat
deriving Repr, DecidableEq

/-- `impl Default for Token`: `Error` type, empty lexeme, line 0. -/
def defaultToken : Token := ⟨.Error, [], 0⟩

/-- Scanner state at a `scan_token` entry point: the remaining source (the
Rust scanner re-bases `start` to `start[current..]` at each call) and the
current line. -/
structure ScanState where
  src : List Char
  line : Nat
deriving Repr, DecidableEq

inductive ScanRes where
  | tok (t : Token) (next : ScanState)
  | panic
  | diverge
deriving Repr, DecidableEq

/-- `Scanner::is_digit` (`c.is_digit(10)`). -/
def isDigitC (c : Char) : Bool := c.isDigit

/-- `Scanner::is_alpha` (`c.is_alphabetic() || c == '_'`). -/
def isAlphaC (c : Char) : Bool := c.isAlpha || c = '_'

/-- `Scanner::peek`: first char at offset `cur` of the re-based source. -/
def peekCh (src : List Char) (cur : Nat) : Option Char := (src.drop cur).head?

/-- `Scanner::peek_next`: `None` when at end, else the char after `peek`. -/
def peekNextCh (src : List Char) (cur : Nat) : Option Char :=
  if (peekCh src cur).isNone then none
  else ((src.drop cur).drop 1).head?

/-- `Scanner::matches`.  The early return fires only when a char is present
and differs from `expected`.  Otherwise the code unwraps
`char_indices().next()`: at end of input that unwraps `None` — a panic
(`none` here).  On a match it adds the FIRST `char_indices` index, which is
always 0, so `current` does not move past the matched char. -/
def matchesCh (expected : Char) (src : List Char) (cur : Nat) :
    Option (Bool × Nat) :=
  match peekCh src cur with
  | some c => if c ≠ expected then some (false, cur) else some (true, cur + 0)
  | none => none

/-- The loop of `Scanner::skip_whitespace`, with fuel.  Every iteration that
recurses consumes at least one character (the comment arm drops the leading
`'/'` at minimum), so fuel `= src.length` (see `skipWs`) is never exhausted
before the loop's own exit. -/
def skipWsF : Nat → List Char → Nat → List Char × Nat
  | 0, l, line => (l, line)
  | _, [], line => ([], line)
  | f + 1, c :: rest, line =>
    if c = ' ' || c = '\r' || c = '\t' then skipWsF f rest line
    else if c = '\n' then skipWsF f rest (line + 1)
    else if c = '/' && rest.head? = some '/' then
      skipWsF f (List.dropWhile (fun ch => ch ≠ '\n') (c :: rest)) line
    else (c :: rest, line)

/-- `Scanner::skip_whitespace`, returning the re-based remaining source and
the updated line counter. -/
def skipWs (l : List Char) (line : Nat) : List Char × Nat :=
  skipWsF l.length l line

/-- `make_token`: lexeme is `start[..current]`; the next scan re-bases to
`start[current..]`. -/
def mkTok (src : List Char) (line : Nat) (ty : TokenType) (cur : Nat) :
    ScanRes :=
  .tok ⟨ty, src.take cur, line⟩ ⟨src.drop cur, line⟩

/-- `Token::error`: the token carries the static message; the scanner state
is left wherever `current` stopped. -/
def errTok (msg : List Char) (line : Nat) (src : List Char) (cur : Nat) :
    ScanRes :=
  .tok ⟨.Error, msg, line⟩ ⟨src.drop cur, line⟩

/-- The `'!'`/`'='`/`'<'`/`'>'` arms of `scan_token`: try to match a
following `'='` (entered with `current = 1`). -/
def twoCharTok (src : List Char) (line : Nat) (two one : TokenType) :
    ScanRes :=
  match matchesCh '=' src 1 with
  | none => .panic
  | some (true, cur) => mkTok src line two cur
  | some (false, cur) => mkTok src line one cur

/-- `Scanner::number`, entered with the first digit consumed (`current = 1`).
The integer-part loop uses `map_or` and is safe; the fractional-part loop is
`while is_digit(self.peek().unwrap())`, which unwraps `None` — a panic — when
the fractional digits run to the very end of the input. -/
def numberTok (src : List Char) (line : Nat) : ScanRes :=
  let cur := 1 + ((src.drop 1).takeWhile isDigitC).length
  match peekCh src cur, peekNextCh src cur with
  | some p, some q =>
    if p = '.' && isDigitC q then
      let cur2 := cur + 1
      let rem := src.drop cur2
      let ds := rem.takeWhile isDigitC
      if ds.length = rem.length then .panic
      else mkTok src line .Number (cur2 + ds.length)
    else mkTok src line .Number cur
  | _, _ => mkTok src line .Number cur

/-- The loop of `Scanner::string`:
`while peek != '"' { if peek == '\n' { line += 1; advance(); } }`.
`advance` is only called on a newline; on any other non-quote character the
state does not change, so the loop never exits (fuel runs out: `none`).
`some (cur, line)` is a normal loop exit (closing quote or end of input). -/
def stringLoop : Nat → List Char → Nat → Nat → Option (Nat × Nat)
  | 0, _, _, _ => none
  | fuel + 1, src, cur, line =>
    match peekCh src cur with
    | some c =>
      if c ≠ '\"' then
        if c = '\n' then stringLoop fuel src (cur + 1) (line + 1)
        else stringLoop fuel src cur line
      else some (cur, line)
    | none => some (cur, line)

/-- `Scanner::string`, entered with the opening quote consumed
(`current = 1`). -/
def stringTok (fuel : Nat) (src : List Char) (line : Nat) : ScanRes :=
  match stringLoop fuel src 1 line with
  | none => .diverge
  | some (cur, l2) =>
    match peekCh src cur with
    | none => errTok (("Unterminated string").toList) l2 src cur
    | some _ => mkTok src l2 .String (cur + 1)

/-- `Scanner::identifier_type`: keyword table lookup on the lexeme. -/
def identifierType (lex : List Char) : TokenType :=
  if lex = ("and").toList then .And
  else if lex = ("class").toList then .Class
  else if lex = ("else").toList then .Else
  else if lex = ("false").toList then .False
  else if lex = ("for").toList then .For
  else if lex = ("fun").toList then .Fun
  else if lex = ("if").toList then .If
  else if lex = ("nil").toList then .Nil
  else if lex = ("or").toList then .Or
  else if lex = ("print").toList then .Print
  else if lex = ("return").toList then .Return
  else if lex = ("super").toList then .Super
  else if lex = ("this").toList then .This
  else if lex = ("true").toList then .True
  else if lex = ("var").toList then .Var
  else if lex = ("while").toList then .While
  else .Identifier

/-- `Scanner::identifier`, entered with the first char consumed. -/
def identifierTok (src : List Char) (line : Nat) : ScanRes :=
  let cur := 1 + ((src.drop 1).takeWhile
    (fun ch => isAlphaC ch || isDigitC ch)).length
  mkTok src line (identifierType (src.take cur)) cur

/-- `Scanner::scan_token`.  `fuel` feeds only the string-literal loop, the
one loop in the scanner whose body can fail to make progress. -/
def scanToken (fuel : Nat) (st : ScanState) : ScanRes :=
  let r := skipWs st.src st.line
  let src := r.1
  let line := r.2
  match src with
  | [] => .tok ⟨.EOF, [], line⟩ ⟨[], line⟩
  | c :: _ =>
    if isAlphaC c then identifierTok src line
    else if isDigitC c then numberTok src line
    else if c = '(' then mkTok src line .LeftParen 1
    else if c = ')' then mkTok src line .RightParen 1
    else if c = Char.ofNat 123 then mkTok src line .LeftBrace 1
    else if c = Char.ofNat 125 then mkTok src line .RightBrace 1
    else if c = ';' then mkTok src line .Semicolon 1
    else if c = ',' then mkTok src line .Comma 1
    else if c = '.' then mkTok src line .Dot 1
    else if c = '-' then mkTok src line .Minus 1
    else if c = '+' then mkTok src line .Plus 1
    else if c = '/' then mkTok src line .Slash 1
    else if c = '*' then mkTok src line .Star 1
    else if c = '!' then twoCharTok src line .BangEqual .Bang
    else if c = '=' then twoCharTok src line .EqualEqual .Equal
    else if c = '<' then twoCharTok src line .LessEqual .Less
    else if c = '>' then twoCharTok src line .GreaterEqual .Greater
    else if c = '\"' then stringTok fuel src line
    else errTok (("Unexpected character.").toList) line src 1

/-! ## Value model (src/value.rs) -/

/-- `Value`: `Bool`, `Nil`, `Number(f64)`, `Obj(Rc<Obj>)` where `Obj` has the
single variant `String`.  The payload is the string contents; `Rc` sharing is
unobservable through `PartialEq`/`Display`/`as_str`.  `f64` is modelled by
`Rat` (see the header note). -/
inductive Value where
  | Bool (b : Bool)
  | Nil
  | Number (n : Rat)
  | Obj (s : List Char)
deriving Repr, DecidableEq

/-- `Value::as_str`. -/
def valueAsStr : Value → Option (List Char)
  | .Obj s => some s
  | _ => none

/-- `Value::is_string`. -/
def valueIsString (v : Value) : Bool := (valueAsStr v).isSome

/-- Constructor test used to state claims about the numeric arm. -/
def valueIsNumber : Value → Bool
  | .Number _ => true
  | _ => false

/-- `impl PartialEq for Value`: per-variant equality, cross-variant `false`.
(`f64` equality on the non-NaN values exercised here agrees with `Rat`
equality.) -/
def valueEq : Value → Value → Bool
  | .Bool a, .Bool b => a == b
  | .Number a, .Number b => a == b
  | .Nil, .Nil => true
  | .Obj a, .Obj b => a == b
  | _, _ => false

/-! ## Chunk (src/chunk.rs) -/

/-- Opcodes.  The enum in chunk.rs lists only the first seven variants, while
vm.rs dispatches on — and compiler.rs emits — the remaining seven as well
(the snapshot is mid-change).  The numbering in `OpCode.toNat` keeps
chunk.rs's declared order and appends the extra variants; no claim depends on
the numeric values. -/
inductive OpCode where
  | Constant | Add | Subtract | Multiply | Divide | Negate | Return
  | Not | Nil | True | False | Equal | Greater | Less
deriving Repr, DecidableEq

def OpCode.toNat : OpCode → Nat
  | .Constant => 0 | .Add => 1 | .Subtract => 2 | .Multiply => 3
  | .Divide => 4 | .Negate => 5 | .Return => 6
  | .Not => 7 | .Nil => 8 | .True => 9 | .False => 10
  | .Equal => 11 | .Greater => 12 | .Less => 13

/-- `Chunk { code: Vec<u8>, lines: Vec<u32>, constants: Vec<Value> }`; `code`
entries are byte values. -/
structure Chunk where
  code : List Nat
  lines : List Nat
  constants : List Value
deriving Repr, DecidableEq

/-- `Chunk::new`. -/
def Chunk.new : Chunk := ⟨[], [], []⟩

/-- `Chunk::write`: push the byte and its line in lockstep. -/
def Chunk.write (c : Chunk) (byte : Nat) (line : Nat) : Chunk :=
  { c with code := c.code ++ [byte], lines := c.lines ++ [line] }

/-- `Chunk::add_constant`: pushes unconditionally, then computes the index as
`try_into::<u8>(constants.len()).unwrap() - 1`.  The conversion — and so the
whole call — panics (`none`) as soon as the new length exceeds `u8::MAX`,
i.e. when the 256th constant is added.  (Its caller `Parser::make_constant`
in compiler.rs expects a `Result` and maps the failure to the compile error
"Too many constants in one chunk.", an API this function does not provide.) -/
def Chunk.addConstant (c : Chunk) (v : Value) : Option (Chunk × Nat) :=
  let cs := c.constants ++ [v]
  if cs.length ≤ 255 then some ({ c with constants := cs }, cs.length - 1)
  else none

/-! ## VM (src/vm.rs) -/

/-- The private `BinaryOp` selector enum of vm.rs. -/
inductive BinOp where
  | Add | Subtract | Multiply | Divide | GreaterThan | LessThan
deriving Repr, DecidableEq

/-- `VM::push` into the fixed `[Value; 256]` array; writing at
`stack_top = 256` would index out of bounds — a panic (`none`).  The stack is
modelled head-first: the list head is the top slot. -/
def vmPush (v : Value) (stack : List Value) : Option (List Value) :=
  if stack.length < 256 then some (v :: stack) else none

/-- `VM::peek(distance)`: reads `stack[stack_top - 1 - distance]`; on
underflow the usize subtraction panics (`none`). -/
def vmPeek (stack : List Value) (d : Nat) : Option Value := stack.get? d

/-- `VM::pop`: `mem::take(&mut self.stack[self.stack_top])` happens BEFORE
`self.stack_top -= 1`, so pop takes the slot ONE ABOVE the live top, Nils
it, and only then decrements.  On the live-stack abstraction this needs an
explicit `above` argument — the content of slot `stack_top` — and returns
the taken value, the content of the NEW above-slot (the old live top, which
the take did not touch), and the remaining live stack.  `none` is a panic:
at `stack_top = 256` the pre-decrement read indexes out of the fixed array,
and at `stack_top = 0` the decrement underflows.

At every instruction boundary every slot at or above `stack_top` holds
`Nil`: slots start as `Value::default()` and each instruction's take/push
sequence re-establishes the property (the trailing push overwrites the one
slot a pop exposed), so callers at instruction boundaries instantiate
`above` with `Value.Nil`. -/
def vmPop (above : Value) (live : List Value) :
    Option (Value × Value × List Value) :=
  if live.length = 256 then none
  else
    match live with
    | [] => none
    | h :: t => some (above, h, t)

/-- `VM::is_falsey`. -/
def isFalsey : Value → Bool
  | .Nil => true
  | .Bool false => true
  | _ => false

/-- Outcome of a binary-operator step: the new stack, or the
`runtime_error` path (which reports the message plus the source line and
resets the stack, halting execution), or a panic. -/
inductive BRes where
  | ok (stack : List Value)
  | runtimeError (msg : List Char)
  | panic
deriving Repr, DecidableEq

/-- `VM::concatenate` (vm.rs:197-205): `b_val = pop(); a_val = pop();` then
`b_val.as_str().unwrap()` before `a_val.as_str().unwrap()`, then push the
concatenation.  Because `pop` reads above the live top, `b_val` receives the
always-`Nil` slot above the stack (hence `Value.Nil` as the initial `above`)
and `a_val` receives the live top; the `b` unwrap therefore panics on every
reachable invocation and the push is never executed. -/
def concatenate (stack : List Value) : BRes :=
  match vmPop Value.Nil stack with
  | none => .panic
  | some (bVal, above2, live2) =>
    match vmPop above2 live2 with
    | none => .panic
    | some (aVal, _, live3) =>
      match valueAsStr bVal with
      | none => .panic
      | some b =>
        match valueAsStr aVal with
        | none => .panic
        | some a =>
          match vmPush (.Obj (a ++ b)) live3 with
          | some s => .ok s
          | none => .panic

/-- `VM::binary_op`: matches on `(peek(0), peek(1))`, so `a` is the
top-of-stack (the later-pushed, right-hand operand) and `b` the one under it.
The both-strings guard comes first and routes every operator — not just Add —
to `concatenate`; the numeric arm pops twice (both results discarded; the
first pop panics if the live stack is full), computes `a OP b` — i.e. the
top operand on the left — from the peeked values, and pushes the result,
which lands exactly where a correct pop–pop–push would put it. -/
def binaryOp (op : BinOp) (stack : List Value) : BRes :=
  match vmPeek stack 0, vmPeek stack 1 with
  | some a, some b =>
    if valueIsString a && valueIsString b then concatenate stack
    else
      match a, b with
      | .Number x, .Number y =>
        match vmPop Value.Nil stack with
        | none => .panic
        | some (_, above2, live2) =>
          match vmPop above2 live2 with
          | none => .panic
          | some (_, _, rest) =>
            let c : Value :=
              match op with
              | .Add => .Number (x + y)
              | .Divide => .Number (x / y)
              | .Multiply => .Number (x * y)
              | .Subtract => .Number (x - y)
              | .GreaterThan => .Bool (decide (x > y))
              | .LessThan => .Bool (decide (x < y))
            match vmPush c rest with
            | some s => .ok s
            | none => .panic
      | _, _ =>
        .runtimeError (("Operands must be two numbers or two strings.").toList)
  | _, _ => .panic

/-! ## Compiler (src/compiler.rs) -/

inductive Precedence where
  | None | Assignment | Or | And | Equality | Comparison
  | Term | Factor | Unary | Call | Primary
deriving Repr, DecidableEq

/-- `Precedence as u8` (declaration order, `repr(u8)`). -/
def precNat : Precedence → Nat
  | .None => 0 | .Assignment => 1 | .Or => 2 | .And => 3 | .Equality => 4
  | .Comparison => 5 | .Term => 6 | .Factor => 7 | .Unary => 8
  | .Call => 9 | .Primary => 10

/-- `TryFrom<u8> for Precedence` (`FromPrimitive`). -/
def precFromNat : Nat → Option Precedence
  | 0 => some .None | 1 => some .Assignment | 2 => some .Or | 3 => some .And
  | 4 => some .Equality | 5 => some .Comparison | 6 => some .Term
  | 7 => some .Factor | 8 => some .Unary | 9 => some .Call
  | 10 => some .Primary | _ => none

inductive ParseFn where
  | Grouping | Unary | Binary | Number | Literal
deriving Repr, DecidableEq

/-- `ParseRule`; `pfn`/`ifn` are the source's prefix/infix rule fields,
`prec` its precedence field. -/
structure ParseRule where
  pfn : Option ParseFn
  ifn : Option ParseFn
  prec : Precedence
deriving Repr, DecidableEq

/-- `Parser::get_rule`: the full parse table.  Note the `Plus` arm: like
`Minus` it carries a prefix rule of `Unary`. -/
def getRule : TokenType → ParseRule
  | .LeftParen => ⟨some .Grouping, none, .None⟩
  | .RightParen => ⟨none, none, .None⟩
  | .LeftBrace => ⟨none, none, .None⟩
  | .RightBrace => ⟨none, none, .None⟩
  | .Comma => ⟨none, none, .None⟩
  | .Dot => ⟨none, none, .None⟩
  | .Minus => ⟨some .Unary, some .Binary, .Term⟩
  | .Plus => ⟨some .Unary, some .Binary, .Term⟩
  | .Semicolon => ⟨none, none, .None⟩
  | .Slash => ⟨none, some .Binary, .Factor⟩
  | .Star => ⟨none, some .Binary, .Factor⟩
  | .Bang => ⟨some .Unary, none, .None⟩
  | .BangEqual => ⟨none, some .Binary, .Equality⟩
  | .Equal => ⟨none, none, .None⟩
  | .EqualEqual => ⟨none, some .Binary, .Equality⟩
  | .Greater => ⟨none, some .Binary, .Comparison⟩
  | .GreaterEqual => ⟨none, some .Binary, .Comparison⟩
  | .Less => ⟨none, some .Binary, .Comparison⟩
  | .LessEqual => ⟨none, some .Binary, .Comparison⟩
  | .Identifier => ⟨none, none, .None⟩
  | .String => ⟨none, none, .None⟩
  | .Number => ⟨some .Number, none, .None⟩
  | .And => ⟨none, none, .None⟩
  | .Class => ⟨none, none, .None⟩
  | .Else => ⟨none, none, .None⟩
  | .False => ⟨some .Literal, none, .None⟩
  | .For => ⟨none, none, .None⟩
  | .Fun => ⟨none, none, .None⟩
  | .If => ⟨none, none, .None⟩
  | .Nil => ⟨some .Literal, none, .None⟩
  | .Or => ⟨none, none, .None⟩
  | .Print => ⟨none, none, .None⟩
  | .Return => ⟨none, none, .None⟩
  | .Super => ⟨none, none, .None⟩
  | .This => ⟨none, none, .None⟩
  | .True => ⟨some .Literal, none, .None⟩
  | .Var => ⟨none, none, .None⟩
  | .While => ⟨none, none, .None⟩
  | .Error => ⟨none, none, .None⟩
  | .EOF => ⟨none, none, .None⟩

/-- `Parser` state.  `reports` records, in order, the `(line, message)` pairs
actually reported by `error_at` (its stderr output), so that suppression by
panic mode is observable. -/
structure PState where
  scanner : ScanState
  current : Token
  previous : Token
  hadError : Bool
  panicMode : Bool
  chunk : Chunk
  reports : List (Nat × List Char)
deriving Repr, DecidableEq

inductive PRes where
  | ok (st : PState)
  | panic
  | diverge
deriving Repr, DecidableEq

def pbind : PRes → (PState → PRes) → PRes
  | .ok st, k => k st
  | .panic, _ => .panic
  | .diverge, _ => .diverge

/-- `Parser::error_at`: an early return under panic mode — and nothing ever
clears `panic_mode` in this compiler — otherwise sets panic mode, records the
report, and sets `had_error`. -/
def errorAt (st : PState) (t : Token) (msg : List Char) : PState :=
  if st.panicMode then st
  else { st with panicMode := true, hadError := true,
                 reports := st.reports ++ [(t.line, msg)] }

/-- `Parser::error_at_current`. -/
def errorAtCurrent (st : PState) (msg : List Char) : PState :=
  errorAt st st.current msg

/-- `Parser::error` (reports at the previous token). -/
def errorAtPrevious (st : PState) (msg : List Char) : PState :=
  errorAt st st.previous msg

/-- `Parser::emit_byte`: writes with the previous token's line. -/
def emitByte (b : Nat) (st : PState) : PState :=
  { st with chunk := st.chunk.write b st.previous.line }

/-- `Parser::emit_bytes`. -/
def emitBytes (b1 b2 : Nat) (st : PState) : PState :=
  emitByte b2 (emitByte b1 st)

/-- The loop of `Parser::advance`: scan tokens, reporting and skipping
`Error` tokens (the report is the token's message and is subject to
panic-mode suppression). -/
def pAdvanceLoop : Nat → PState → PRes
  | 0, _ => .diverge
  | fuel + 1, st =>
    match scanToken fuel st.scanner with
    | .panic => .panic
    | .diverge => .diverge
    | .tok t next =>
      let st1 := { st with scanner := next, current := t }
      if st1.current.ty = .Error then
        pAdvanceLoop fuel (errorAtCurrent st1 st1.current.start)
      else .ok st1

/-- `Parser::advance`: previous ← current, then pull the next non-error
token. -/
def pAdvance (fuel : Nat) (st : PState) : PRes :=
  pAdvanceLoop fuel { st with previous := st.current }

/-- `Parser::consume`. -/
def pConsume (fuel : Nat) (ty : TokenType) (msg : List Char) (st : PState) :
    PRes :=
  if st.current.ty = ty then pAdvance fuel st
  else .ok (errorAtCurrent st msg)

/-- Digit run to a natural number. -/
def digitsVal (l : List Char) : Nat :=
  l.foldl (fun a c => 10 * a + (c.toNat - 48)) 0

/-- `previous.start.parse::<f64>().unwrap()` on the lexemes the scanner's
`number` produces (`digits` or `digits.digits`); these parse exactly, and the
values exercised here are exactly representable in `f64`. -/
def parseNum (l : List Char) : Rat :=
  let ip := l.takeWhile isDigitC
  let rest := l.drop ip.length
  match rest with
  | '.' :: ds => (digitsVal ip : Rat) + (digitsVal ds : Rat) / ((10 : Rat) ^ ds.length)
  | _ => (digitsVal ip : Rat)

/-- `Parser::number` + `emit_constant` + `make_constant`.  `make_constant`
calls `chunk.add_constant`, whose overflow behaviour as written in chunk.rs
is a panic; the `Result`-style handler in compiler.rs (error "Too many
constants in one chunk.") expects an API `add_constant` does not provide. -/
def pNumber (st : PState) : PRes :=
  let v := Value.Number (parseNum st.previous.start)
  match st.chunk.addConstant v with
  | none => .panic
  | some (ch, idx) =>
    .ok (emitBytes (OpCode.toNat .Constant) idx { st with chunk := ch })

/-- `Parser::literal`. -/
def pLiteral (st : PState) : PRes :=
  match st.previous.ty with
  | .False => .ok (emitByte (OpCode.toNat .False) st)
  | .Nil => .ok (emitByte (OpCode.toNat .Nil) st)
  | .True => .ok (emitByte (OpCode.toNat .True) st)
  | _ => .panic

/-- The emission match at the end of `Parser::binary` (`!=`, `>=`, `<=`
become two-instruction sequences); the wildcard arm is `unreachable!()`. -/
def emitBinaryOpBytes (opTy : TokenType) (st : PState) : PRes :=
  match opTy with
  | .BangEqual => .ok (emitBytes (OpCode.toNat .Equal) (OpCode.toNat .Not) st)
  | .EqualEqual => .ok (emitByte (OpCode.toNat .Equal) st)
  | .Greater => .ok (emitByte (OpCode.toNat .Greater) st)
  | .GreaterEqual => .ok (emitBytes (OpCode.toNat .Less) (OpCode.toNat .Not) st)
  | .Less => .ok (emitByte (OpCode.toNat .Less) st)
  | .LessEqual => .ok (emitBytes (OpCode.toNat .Greater) (OpCode.toNat .Not) st)
  | .Plus => .ok (emitByte (OpCode.toNat .Add) st)
  | .Minus => .ok (emitByte (OpCode.toNat .Subtract) st)
  | .Star => .ok (emitByte (OpCode.toNat .Multiply) st)
  | .Slash => .ok (emitByte (OpCode.toNat .Divide) st)
  | _ => .panic

/-- The mutually recursive parser entry points, collapsed into one
fuel-indexed interpreter.  Each case mirrors the corresponding method of
`Parser`. -/
inductive PCall where
  | expr
  | parsePrec (p : Precedence)
  | infixLoop (p : Precedence)
  | invokeFn (pf : ParseFn)
deriving Repr, DecidableEq

def pExec : Nat → PCall → PState → PRes
  | 0, _, _ => .diverge
  | fuel + 1, call, st =>
    match call with
    | .expr =>
      -- `Parser::expression`
      pExec fuel (.parsePrec .Assignment) st
    | .parsePrec p =>
      -- `Parser::parse_precedence`: advance; prefix rule or
      -- "Expect expression."; then the infix loop.
      pbind (pAdvance fuel st) (fun st1 =>
        pbind (match (getRule st1.previous.ty).pfn with
               | none => .ok (errorAtPrevious st1 (("Expect expression.").toList))
               | some r => pExec fuel (.invokeFn r) st1)
          (fun st2 => pExec fuel (.infixLoop p) st2))
    | .infixLoop p =>
      -- the while loop of `parse_precedence`; `infix_rule.unwrap()` panics
      -- when the rule is absent.
      if precNat p ≤ precNat (getRule st.current.ty).prec then
        pbind (pAdvance fuel st) (fun st1 =>
          match (getRule st1.previous.ty).ifn with
          | none => .panic
          | some r =>
            pbind (pExec fuel (.invokeFn r) st1)
              (fun st2 => pExec fuel (.infixLoop p) st2))
      else .ok st
    | .invokeFn pf =>
      -- `Parser::invoke_parse_fn`
      match pf with
      | .Grouping =>
        pbind (pExec fuel .expr st) (fun st1 =>
          pConsume fuel .RightParen (("Expect ')' after expression.").toList) st1)
      | .Unary =>
        -- `Parser::unary`: compile the operand, then emit by operator type;
        -- the wildcard arm is `unreachable!()` — reached for `Plus`.
        let opTy := st.previous.ty
        pbind (pExec fuel (.parsePrec .Unary) st) (fun st1 =>
          match opTy with
          | .Bang => .ok (emitByte (OpCode.toNat .Not) st1)
          | .Minus => .ok (emitByte (OpCode.toNat .Negate) st1)
          | _ => .panic)
      | .Binary =>
        -- `Parser::binary`: `(precedence as u8 + 1).try_into().unwrap()`
        let opTy := st.previous.ty
        let rule := getRule opTy
        match precFromNat (precNat rule.prec + 1) with
        | none => .panic
        | some p2 =>
          pbind (pExec fuel (.parsePrec p2) st)
            (fun st1 => emitBinaryOpBytes opTy st1)
      | .Number => pNumber st
      | .Literal => pLiteral st

inductive CompileRes where
  | okC (c : Chunk) (reports : List (Nat × List Char))
  | errC (reports : List (Nat × List Char))
  | panic
  | diverge
deriving Repr, DecidableEq

/-- `Parser::end`: emit the terminal Return.  (The debug disassembly sits
behind a build-time flag — with a misspelled cfg key, at that — and never
affects state.) -/
def pEnd (st : PState) : PState := emitByte (OpCode.toNat .Return) st

/-- `compiler::compile`: advance, one expression, require EOF, append
Return; `Err` iff any error was recorded.  Both result forms also expose the
ordered list of reported errors. -/
def compile (fuel : Nat) (source : String) : CompileRes :=
  let st0 : PState :=
    { scanner := ⟨source.toList, 1⟩, current := defaultToken,
      previous := defaultToken, hadError := false, panicMode := false,
      chunk := Chunk.new, reports := [] }
  match pbind (pAdvance fuel st0) (fun st1 =>
          pbind (pExec fuel .expr st1) (fun st2 =>
            pbind (pConsume fuel .EOF (("Expect end of expression").toList) st2)
              (fun st3 => .ok (pEnd st3)))) with
  | .panic => .panic
  | .diverge => .diverge
  | .ok st => if st.hadError then .errC st.reports else .okC st.chunk st.reports

/-! ## Theorems -/

/-- The body of the string loop makes no progress on a non-quote,
non-newline character, so the loop never exits: for every fuel the outcome
is divergence. -/
theorem stringLoop_no_progress (src : List Char) (cur line : Nat) (c : Char)
    (hp : peekCh src cur = some c) (hq : c ≠ '\"') (hn : c ≠ '\n') :
    ∀ fuel, stringLoop fuel src cur line = none := by
  intro fuel
  induction fuel with
  | zero => rfl
  | succ f ih => simp [stringLoop, hp, hq, hn, ih]

/-- Sanity: the pipeline compiles a bare numeric literal to
Constant 0; Return with a parallel line table and a one-entry pool. -/
theorem compile_number_literal_sanity :
    compile 30 ("1") = .okC ⟨[0, 0, 6], [1, 1, 1], [Value.Number 1]⟩ [] := by
  decide

/-- Claim C1 (code_bug): the claim says `scan_token` never panics, in
particular not on `'!'`/`'='` as the final character nor on a numeric
literal whose fractional part ends the input.  The code panics on exactly
those inputs: `matches` unwraps an empty `char_indices` iterator at end of
input, and `number`'s fractional-part loop unwraps `peek()` when the digits
run to the end. -/
theorem c1_scanner_panics_on_malformed_tail :
    scanToken 5 ⟨['!'], 1⟩ = .panic
    ∧ scanToken 5 ⟨['='], 1⟩ = .panic
    ∧ scanToken 5 ⟨("1.5").toList, 1⟩ = .panic := by decide

/-- Claim C2 (code_bug): the claim says `scan_token` terminates on every
input, consuming a terminated string literal into a String token.  In the
code, `string`'s loop advances only over newlines, so on the two-character
terminated literal `"a"` the scan diverges for every fuel; the
"Unterminated string" Error arm is reachable only when nothing but newlines
precede the end of input (second conjunct: a lone opening quote). -/
theorem c2_scanner_string_scan_diverges (fuel : Nat) :
    scanToken fuel ⟨("\"a\"").toList, 1⟩ = .diverge
    ∧ scanToken 5 ⟨['\"'], 1⟩
        = .tok ⟨.Error, ("Unterminated string").toList, 1⟩ ⟨[], 1⟩ := by
  refine ⟨?_, by decide⟩
  have h := stringLoop_no_progress (("\"a\"").toList) 1 1 'a'
    (by decide) (by decide) (by decide) fuel
  have e : scanToken fuel ⟨("\"a\"").toList, 1⟩
      = stringTok fuel (("\"a\"").toList) 1 := rfl
  rw [e]; unfold stringTok; rw [h]

/-- Every call to `concatenate` panics: the first pop hands `b_val` the
always-`Nil` slot above the live top (or itself panics on an empty or full
stack), and `b_val.as_str().unwrap()` unwraps `None`. -/
theorem concatenate_always_panics (stack : List Value) :
    concatenate stack = .panic := by
  unfold concatenate
  cases hpop : vmPop Value.Nil stack with
  | none => rfl
  | some x =>
    obtain ⟨bVal, above2, live2⟩ := x
    have hb : bVal = Value.Nil := by
      unfold vmPop at hpop
      split at hpop
      · simp at hpop
      · split at hpop
        · simp at hpop
        · simp only [Option.some.injEq, Prod.mk.injEq] at hpop
          exact hpop.1.symm
    subst hb
    dsimp only
    cases hpop2 : vmPop above2 live2 with
    | none => rfl
    | some y =>
      obtain ⟨aVal, z, l3⟩ := y
      rfl

/-- Claim C3 (code_bug): the claim's run of `"foo" + "bar"` cannot happen:
scanning the source's very first token (the string literal `"foo"`)
diverges for every fuel, so compilation never terminates.  And even the Add
mechanism could not produce "foobar": with both string operands on the
stack ("bar" on top), Add routes to `concatenate`, whose first pop reads
the `Nil` slot above the live top and whose `as_str().unwrap()` therefore
panics (second conjunct) — no concatenation is ever pushed. -/
theorem c3_source_scan_diverges_add_panics (fuel : Nat) :
    scanToken fuel ⟨("\"foo\" + \"bar\"").toList, 1⟩ = .diverge
    ∧ binaryOp .Add [Value.Obj (("bar").toList), Value.Obj (("foo").toList)]
        = .panic := by
  refine ⟨?_, by decide⟩
  have h := stringLoop_no_progress (("\"foo\" + \"bar\"").toList) 1 1 'f'
    (by decide) (by decide) (by decide) fuel
  have e : scanToken fuel ⟨("\"foo\" + \"bar\"").toList, 1⟩
      = stringTok fuel (("\"foo\" + \"bar\"").toList) 1 := rfl
  rw [e]; unfold stringTok; rw [h]

/-- Claim C4 (code_bug): after pushing 3 then 1, the claim expects
Subtract = 2, Divide = 3, Greater = true.  `binary_op` binds `a` to
`peek(0)` — the top, i.e. the later-pushed right operand — and computes
`a OP b`, so the code produces 1−3 = −2, 1/3, 1>3 = false and 1<3 = true.
(Stack lists are top-first: `[1, 3]` is "3 pushed, then 1".  The Divide
value 1/3 is the exact rational; `f64` division returns the double nearest
to 1/3, which likewise differs from the claimed 3.) -/
theorem c4_binary_op_swaps_operands :
    binaryOp .Subtract [Value.Number 1, Value.Number 3]
        = .ok [Value.Number (-2)]
    ∧ binaryOp .Divide [Value.Number 1, Value.Number 3]
        = .ok [Value.Number (1 / 3)]
    ∧ binaryOp .GreaterThan [Value.Number 1, Value.Number 3]
        = .ok [Value.Bool false]
    ∧ binaryOp .LessThan [Value.Number 1, Value.Number 3]
        = .ok [Value.Bool true] := by
  refine ⟨?_, ?_, ?_, ?_⟩ <;>
    norm_num [binaryOp, vmPeek, vmPop, vmPush, valueIsString, valueAsStr]

/-- Claim C5 (code_bug): per-variant `Value` equality is as claimed —
cross-variant comparisons are `false` (first conjunct).  But the end-to-end
run of `1 == "1"` cannot produce `false`: scanning `==` consumes only the
first `'='` (the `matches` bug adds the char_indices index 0), yielding an
EqualEqual token followed by a stray Equal token; and scanning the string
literal `"1"` then diverges for every fuel. -/
theorem c5_cross_variant_eq_false_scanner_breaks_source (fuel : Nat) :
    (∀ (n : Rat) (s : List Char),
        valueEq (Value.Number n) (Value.Obj s) = false
        ∧ valueEq (Value.Obj s) (Value.Number n) = false
        ∧ valueEq (Value.Number n) Value.Nil = false
        ∧ valueEq (Value.Bool true) (Value.Number n) = false)
    ∧ scanToken 5 ⟨("== \"1\"").toList, 1⟩
        = .tok ⟨.EqualEqual, ['='], 1⟩ ⟨("= \"1\"").toList, 1⟩
    ∧ scanToken fuel ⟨("\"1\"").toList, 1⟩ = .diverge := by
  refine ⟨fun n s => ⟨rfl, rfl, rfl, rfl⟩, by decide, ?_⟩
  have h := stringLoop_no_progress (("\"1\"").toList) 1 1 '1'
    (by decide) (by decide) (by decide) fuel
  have e : scanToken fuel ⟨("\"1\"").toList, 1⟩
      = stringTok fuel (("\"1\"").toList) 1 := rfl
  rw [e]; unfold stringTok; rw [h]

/-- Claim C6 counterexample: executing Subtract with two string operands
("a" pushed, then "b") does not halt with the RuntimeError "Operands must
be two numbers or two strings." — the both-strings guard in `binary_op`
routes it (like every operator) to `concatenate`, which panics because the
first pop reads the `Nil` slot above the live top. -/
theorem c6_counterexample_subtract_strings_panics :
    binaryOp .Subtract [Value.Obj (("b").toList), Value.Obj (("a").toList)]
        = .panic
    ∧ binaryOp .Subtract [Value.Obj (("b").toList), Value.Obj (("a").toList)]
        ≠ .runtimeError (("Operands must be two numbers or two strings.").toList) := by
  decide

/-- Claim C6 as amended: for every binary opcode (Subtract, Multiply,
Divide, Greater, Less — and Add alike), two string operands never yield the
RuntimeError: the uniform both-strings guard routes to `concatenate`, which
panics on its first unwrap, so no opcode ever pushes a concatenation; the
RuntimeError "Operands must be two numbers or two strings." arises exactly
when the two operands are neither both Numbers nor both strings. -/
theorem c6_amended_string_check_uniform (op : BinOp) (sa sb : List Char)
    (rest rest2 : List Value)
    (a b : Value) (hs : (valueIsString a && valueIsString b) = false)
    (hn : (valueIsNumber a && valueIsNumber b) = false) :
    binaryOp op (Value.Obj sb :: Value.Obj sa :: rest) = .panic
    ∧ binaryOp op (a :: b :: rest2)
        = .runtimeError (("Operands must be two numbers or two strings.").toList) := by
  constructor
  · have hc := concatenate_always_panics (Value.Obj sb :: Value.Obj sa :: rest)
    simp [binaryOp, vmPeek, valueIsString, valueAsStr, hc]
  · cases a <;> cases b <;>
      simp_all [binaryOp, vmPeek, valueIsString, valueIsNumber, valueAsStr]

/-- Witness for the amended C6 theorem at concrete inputs. -/
theorem c6_amended_string_check_uniform_witness :
    binaryOp .Multiply [Value.Obj (("y").toList), Value.Obj (("x").toList)]
        = .panic
    ∧ binaryOp .Multiply [Value.Bool true, Value.Nil]
        = .runtimeError (("Operands must be two numbers or two strings.").toList) :=
  c6_amended_string_check_uniform .Multiply (("x").toList) (("y").toList)
    [] [] (Value.Bool true) Value.Nil (by decide) (by decide)

set_option maxRecDepth 4000 in
/-- Claim C7 (code_bug): the claim expects a CompileError when the constant
pool overflows.  `add_constant` pushes, then unwraps the `usize → u8`
conversion of the new length: with 255 entries already present the call
panics (first conjunct) instead of returning the failure that
`make_constant` would report as "Too many constants in one chunk.".  Below
the limit the index is the pre-push length — no wraparound (second
conjunct). -/
theorem c7_add_constant_panics_at_256th :
    Chunk.addConstant ⟨[], [], List.replicate 255 Value.Nil⟩ Value.Nil = none
    ∧ Chunk.addConstant ⟨[], [], List.replicate 254 Value.Nil⟩ Value.Nil
        = some (⟨[], [], List.replicate 254 Value.Nil ++ [Value.Nil]⟩, 254) := by
  constructor <;> simp [Chunk.addConstant]

/-- Claim C8 counterexample: the source `@ @` contains two independent
lexical errors at two different tokens (first two conjuncts: two distinct
Error tokens), yet one compile pass reports exactly one error — the second
is suppressed because panic mode is never cleared — before failing. -/
theorem c8_counterexample_second_error_suppressed :
    scanToken 5 ⟨("@ @").toList, 1⟩
        = .tok ⟨.Error, ("Unexpected character.").toList, 1⟩ ⟨(" @").toList, 1⟩
    ∧ scanToken 5 ⟨(" @").toList, 1⟩
        = .tok ⟨.Error, ("Unexpected character.").toList, 1⟩ ⟨[], 1⟩
    ∧ compile 30 ("@ @") = .errC [(1, ("Unexpected character.").toList)] := by
  decide

/-- Claim C8 as amended: `error_at` under panic mode changes nothing, and
since nothing in this compiler ever clears `panic_mode`, only the first
error of a compile pass is reported; parsing still continues and `compile`
still returns failure (second conjunct: the two-error source `@ @` yields
failure with exactly the first report). -/
theorem c8_amended_only_first_error_reported (st : PState) (t : Token)
    (msg : List Char) :
    errorAt { st with panicMode := true } t msg = { st with panicMode := true }
    ∧ compile 30 ("@ @") = .errC [(1, ("Unexpected character.").toList)] := by
  exact ⟨by simp [errorAt], by decide⟩

/-- Claim C9 (confirmed): `lines.length = code.length` holds for `Chunk::new`
and after every sequence of `Chunk::write` calls. -/
theorem c9_lines_code_same_length (ws : List (Nat × Nat)) :
    (ws.foldl (fun c p => c.write p.1 p.2) Chunk.new).lines.length
      = (ws.foldl (fun c p => c.write p.1 p.2) Chunk.new).code.length := by
  suffices h : ∀ c : Chunk, c.lines.length = c.code.length →
      (ws.foldl (fun c p => c.write p.1 p.2) c).lines.length
        = (ws.foldl (fun c p => c.write p.1 p.2) c).code.length from
    h Chunk.new rfl
  induction ws with
  | nil => exact fun c hc => hc
  | cons p ws ih =>
    intro c hc
    exact ih _ (by simp [Chunk.write, hc])

/-- Claim C10 (confirmed): the parse table gives `Plus` a Unary prefix rule,
so compiling `+1` reaches the `unreachable!()` arm of `Parser::unary` and
aborts with a panic instead of reporting a CompileError. -/
theorem c10_plus_prefix_rule_hits_unreachable :
    (getRule .Plus).pfn = some .Unary ∧ compile 30 ("+1") = .panic :=
  ⟨rfl, by decide⟩

end RLox
